import Mathlib

/-!
Verification development for the artifact-packaging engine (henge).

Shallow embedding of:
- `render` (template.ts): recursive placeholder substitution over expressions
  matched by the regex `\{([$\w.-]+)\}`;
- `Configuration.getMatchedPlatforms` (configuration.ts);
- `Artifact.normalizeMapping`, `Artifact.buildPath` and the pure per-platform
  logic of `Artifact.generate` (artifact.ts).

The code runs on Node's posix path library, so `Path.sep = "/"`,
`Path.normalize`, `Path.join` and `Path.basename` are embedded following the
posix implementations used by the code.
-/

/-- Nested data structure passed to `render` (a `Dictionary<any>` in the code):
either a string leaf or an object of key/value entries. Primitive leaves
expose no further keys in this model, so a key lookup on a leaf is a miss
(`undefined`). -/
inductive Data where
  | str : String → Data
  | obj : List (String × Data) → Data

/-- `node[key]` on a `Data` node: objects look the key up, leaves miss. -/
def getKey : Data → String → Option Data
  | .str _, _ => none
  | .obj kvs, k => (kvs.find? (fun p => p.1 = k)).map (fun p => p.2)

/-- Walking `data` following each key of the dotted path in order; `none` as
soon as any step yields an undefined value (the `node === undefined` check in
`render`). -/
def lookupPath : Data → List String → Option Data
  | d, [] => some d
  | d, k :: ks =>
    match getKey d k with
    | none => none
    | some v => lookupPath v ks

/-- JS stringification of the resolved value substituted by
`String.prototype.replace`. -/
def dataToString : Data → String
  | .str s => s
  | .obj _ => "[object Object]"

/-- Character class of the regex capture group `[$\w.-]` (with `\w` being
`[A-Za-z0-9_]`). -/
def isExprChar (c : Char) : Bool :=
  c = '$' || (c ≥ 'a' && c ≤ 'z') || (c ≥ 'A' && c ≤ 'Z') ||
    (c ≥ '0' && c ≤ '9') || c = '_' || c = '.' || c = '-'

/-- One token of the source template as decomposed by the global regex
replace: a literal character, or a placeholder `{expr}` (stored as the chars
of `expr`). -/
inductive RTok where
  | lit : Char → RTok
  | ph : List Char → RTok

/-- Tokenizer implementing the leftmost, non-overlapping matching of the
global regex `\{([$\w.-]+)\}` over the template. The second argument holds
the expression characters (reversed) of a `{`-opened candidate match still in
progress, or `none` outside a candidate. -/
def goToks : List Char → Option (List Char) → List RTok
  | [], none => []
  | [], some acc => ('{' :: acc.reverse).map RTok.lit
  | c :: rest, none =>
    if c = '{' then goToks rest (some [])
    else RTok.lit c :: goToks rest none
  | c :: rest, some acc =>
    if c = '}' then
      match acc with
      | [] => RTok.lit '{' :: RTok.lit '}' :: goToks rest none
      | _ :: _ => RTok.ph acc.reverse :: goToks rest none
    else if isExprChar c then goToks rest (some (c :: acc))
    else if c = '{' then ('{' :: acc.reverse).map RTok.lit ++ goToks rest (some [])
    else ('{' :: acc.reverse).map RTok.lit ++ (RTok.lit c :: goToks rest none)

/-- The original text a token stands for in the template. -/
def detok : RTok → List Char
  | .lit c => [c]
  | .ph e => '{' :: e ++ ['}']

/-- The literal text a pending tokenizer state stands for. -/
def pendingChars : Option (List Char) → List Char
  | none => []
  | some acc => '{' :: acc.reverse

/-- Splitting a placeholder expression on `.` : `expression.split('.')`. -/
def splitOnCharGo (sep : Char) : List Char → List Char → List (List Char)
  | acc, [] => [acc.reverse]
  | acc, c :: rest =>
    if c = sep then acc.reverse :: splitOnCharGo sep [] rest
    else splitOnCharGo sep (c :: acc) rest

/-- `s.split(sep)` for a single-character separator (JS semantics). -/
def splitOnChar (sep : Char) (s : String) : List String :=
  (splitOnCharGo sep [] s.data).map String.mk

/-- The replace callback of `render`: resolve the key path; on a miss return
the original `{expr}` text, otherwise the stringified value. -/
def renderTok (d : Data) : RTok → List Char
  | .lit c => [c]
  | .ph e =>
    match lookupPath d (splitOnChar '.' (String.mk e)) with
    | some v => (dataToString v).data
    | none => '{' :: e ++ ['}']

/-- One full substitution pass: `template.replace(/\{([$\w.-]+)\}/g, cb)`. -/
def renderOnce (t : String) (d : Data) : String :=
  String.mk (((goToks t.data none).map (renderTok d)).flatten)

/-- `render`: repeat the pass on its own output until a pass produces no
change. The source recursion has no termination guarantee, so the embedding
takes explicit fuel; `none` means the recursion was still changing when the
fuel ran out. -/
def renderFuel : Nat → String → Data → Option String
  | 0, t, d => if renderOnce t d = t then some t else none
  | n + 1, t, d =>
    let r := renderOnce t d
    if r = t then some t else renderFuel n r d

/-- `true` iff every placeholder matched in `t` has a key path that reaches
an undefined value in `d`. -/
def allPlaceholdersMiss (d : Data) (t : String) : Bool :=
  (goToks t.data none).all (fun tok =>
    match tok with
    | .ph e => (lookupPath d (splitOnChar '.' (String.mk e))).isNone
    | .lit _ => true)

/-- `s.endsWith(Path.sep)` with the posix separator. -/
def endsWithSep (s : String) : Bool := s.data.getLast? = some '/'

/-- `s.startsWith(Path.sep)` with the posix separator. -/
def startsWithSep (s : String) : Bool := s.data.head? = some '/'

/-- Segment resolution of Node's `normalizeString`: drop empty and `.`
segments; `..` pops the previous segment, or is kept (relative paths only)
when there is nothing left to pop. The accumulator holds the resolved
segments in reverse. -/
def normSegsGo (allowAboveRoot : Bool) : List String → List String → List String
  | acc, [] => acc.reverse
  | acc, s :: rest =>
    if s = "" || s = "." then normSegsGo allowAboveRoot acc rest
    else if s = ".." then
      match acc with
      | [] => normSegsGo allowAboveRoot (if allowAboveRoot then [s] else []) rest
      | t :: acc' =>
        if t = ".." then normSegsGo allowAboveRoot (if allowAboveRoot then s :: t :: acc' else t :: acc') rest
        else normSegsGo allowAboveRoot acc' rest
    else normSegsGo allowAboveRoot (s :: acc) rest

/-- Interleave path segments with `/`. -/
def joinSegs : List String → String
  | [] => ""
  | s :: rest => rest.foldl (fun a seg => a ++ "/" ++ seg) s

/-- Node `path.posix.normalize`. -/
def posixNormalize (p : String) : String :=
  if p = "" then "."
  else
    let isAbs := startsWithSep p
    let trailing := endsWithSep p
    let body := joinSegs (normSegsGo (!isAbs) [] (splitOnChar '/' p))
    if body = "" then
      if isAbs then "/" else if trailing then "./" else "."
    else
      (if isAbs then "/" else "") ++ body ++ (if trailing then "/" else "")

/-- Node `path.posix.basename` (no extension argument): the final path
component, ignoring trailing separators. -/
def posixBasename (p : String) : String :=
  String.mk (((p.data.reverse.dropWhile (fun c => c = '/')).takeWhile (fun c => c ≠ '/')).reverse)

/-- Node `path.posix.join(...parts)`: concatenate the non-empty arguments
with `/` and normalize; all-empty input yields `.`. -/
def pathJoinList (parts : List String) : String :=
  let ps := parts.filter (fun s => s ≠ "")
  match ps with
  | [] => "."
  | _ => posixNormalize (joinSegs ps)

/-- Binary `Path.join(a, b)`. -/
def pathJoin2 (a b : String) : String := pathJoinList [a, b]

/-- A capture produced by the glob walker for one matched file: a string for
one `*` match (a `Segment`), or a list of whole path segments for one `**`
match (a `SegmentRun`, possibly empty). -/
inductive Capture where
  | segment : String → Capture
  | segmentRun : List String → Capture
deriving DecidableEq

/-- `pattern.split('**')` (JS semantics: leftmost, non-overlapping). -/
def splitOnStarStarGo : List Char → List Char → List (List Char)
  | acc, [] => [acc.reverse]
  | acc, '*' :: '*' :: rest => acc.reverse :: splitOnStarStarGo [] rest
  | acc, c :: rest => splitOnStarStarGo (c :: acc) rest

/-- `pattern.split('**')` on strings. -/
def splitOnStarStar (s : String) : List String :=
  (splitOnStarStarGo [] s.data).map String.mk

/-- The `**` splice loop of `buildPath`:
`for (let i = parts.length - 1; i > 0 && globStarsCaptures.length; i--)`,
popping one capture per iteration and splicing its joined segments at index
`i` when the run is non-empty. The first argument is the current loop index. -/
def spliceGlobstarsGo : Nat → List String → List (List String) → List String
  | 0, parts, _ => parts
  | i + 1, parts, caps =>
    match caps.getLast? with
    | none => parts
    | some c =>
      spliceGlobstarsGo i
        (if c.length ≠ 0 then parts.insertIdx (i + 1) (pathJoinList c) else parts)
        caps.dropLast

/-- The `*` splice loop of `buildPath`: symmetric, splicing the popped
segment capture unconditionally. -/
def spliceStarsGo : Nat → List String → List String → List String
  | 0, parts, _ => parts
  | i + 1, parts, caps =>
    match caps.getLast? with
    | none => parts
    | some c => spliceStarsGo i (parts.insertIdx (i + 1) c) caps.dropLast

/-- `Artifact.buildPath(pattern, captures)`. -/
def buildPath (pattern : String) (captures : List Capture) : String :=
  let starCaptures := captures.filterMap (fun c =>
    match c with
    | .segment s => some s
    | .segmentRun _ => none)
  let globStarsCaptures := captures.filterMap (fun c =>
    match c with
    | .segmentRun r => some r
    | .segment _ => none)
  let startWithSlash := startsWithSep pattern
  let parts := splitOnStarStar pattern
  let parts :=
    if parts.length > 1 then spliceGlobstarsGo (parts.length - 1) parts globStarsCaptures
    else parts
  let parts2 := splitOnChar '*' (String.join parts)
  let parts2 :=
    if parts2.length > 1 then spliceStarsGo (parts2.length - 1) parts2 starCaptures
    else parts2
  let path := posixNormalize (String.join parts2)
  if !startWithSlash && startsWithSep path then String.mk (path.data.drop 1) else path

/-- A platform entry of the project's platform list. The spec-level shape
carries a name and the platform template variables (named `variables` in the
spec, `vars` here since `variables` is reserved in Lean); only the name is used
by the code paths embedded here. -/
structure PlatformInfo where
  name : String
  vars : List (String × Data) := []

/-- `PlatformSpecifier` (configuration.ts): the three optional fields, with
`none` standing for an absent (hence falsy) field. -/
structure PlatformSpecifier where
  multiplatform : Bool := false
  platform : Option String := none
  platforms : Option (List String) := none

/-- `Configuration.getMatchedPlatforms(specifier, platforms)`. The host's
platform identifier (`process.platform`) is passed explicitly. JS truthiness
is preserved: a present `platforms` array is truthy even when empty, while an
empty-string `platform` is falsy. -/
def getMatchedPlatforms (hostPlatform : String) (specifier : PlatformSpecifier)
    (platforms : List PlatformInfo) : List PlatformInfo × Bool :=
  let platformNames : Option (List String) :=
    match specifier.platforms with
    | some names => some names
    | none =>
      match specifier.platform with
      | some p => if p = "" then none else some [p]
      | none => none
  match platformNames with
  | some names => (platforms.filter (fun pl => names.contains pl.name), true)
  | none =>
    if specifier.multiplatform then (platforms, true)
    else ([{ name := hostPlatform }], false)

/-- Modelled from the claim's words for comparison with the source: the first
branch applies only when `specifier.platforms` is *non-empty* (the code tests
presence instead), the second whenever `specifier.platform` is set. -/
def getMatchedPlatformsClaim (hostPlatform : String) (specifier : PlatformSpecifier)
    (platforms : List PlatformInfo) : List PlatformInfo × Bool :=
  match specifier.platforms with
  | some (n :: ns) => (platforms.filter (fun pl => (n :: ns).contains pl.name), true)
  | _ =>
    match specifier.platform with
    | some p => (platforms.filter (fun pl => [p].contains pl.name), true)
    | none =>
      if specifier.multiplatform then (platforms, true)
      else ([{ name := hostPlatform }], false)

/-- `FileMappingConfiguration`: a bare string shorthand or a descriptor with
optional fields (`none` = absent). -/
inductive FileMappingConfiguration where
  | str : String → FileMappingConfiguration
  | descriptor : (package : Option String) → (pattern : Option String) →
      (baseDir : Option String) → (path : Option String) →
      (platform : Option String) → (platforms : Option (List String)) →
      FileMappingConfiguration

/-- The normalized `FileMapping` record; `platformSet` is carried as a list
whose membership models `Set.has`. -/
structure FileMapping where
  package : Option String
  baseDir : Option String
  pattern : String
  path : String
  platformSet : Option (List String)
deriving DecidableEq

/-- The raw local fields computed by the two branches of `normalizeMapping`
before validation. A `none` in `pattern` / `baseDir` / `path` stands for a
JS-falsy value (absent field or empty string, which short-circuits the
`config.x && Path.normalize(config.x)` / `config.path ? ... : pattern`
expressions). -/
structure RawMappingFields where
  package : Option String
  pattern : Option String
  baseDir : Option String
  path : Option String
  platformSet : Option (List String)

/-- The branch of `normalizeMapping` on the configuration shape. -/
def rawMappingFields : FileMappingConfiguration → RawMappingFields
  | .str s =>
    { package := none, pattern := some (posixNormalize s), baseDir := none,
      path := some (posixNormalize s), platformSet := none }
  | .descriptor pkg pat bd pth plat plats =>
    { package := pkg
      pattern :=
        match pat with
        | some s => if s = "" then none else some (posixNormalize s)
        | none => none
      baseDir :=
        match bd with
        | some s => if s = "" then none else some (posixNormalize s)
        | none => none
      path :=
        match pth with
        | some s => if s = "" then none else some (posixNormalize s)
        | none => none
      platformSet :=
        match plats with
        | some names => some names
        | none =>
          match plat with
          | some p => if p = "" then none else some [p]
          | none => none }

/-- `Artifact.normalizeMapping(config)`; an `ExpectedError` becomes
`Except.error` with the error's message. -/
def normalizeMapping (config : FileMappingConfiguration) : Except String FileMapping :=
  let f := rawMappingFields config
  match f.pattern with
  | none => Except.error ("Property pattern is required for mapping")
  | some pattern =>
    if endsWithSep pattern then
      Except.error ("Expecting mapping pattern to match files instead of directories")
    else
      let baseName := posixBasename pattern
      let path := f.path.getD pattern
      if endsWithSep path then
        if baseName = "**" && posixBasename path = "**" then
          Except.error ("Invalid path option")
        else
          Except.ok { package := f.package, baseDir := f.baseDir, pattern := pattern,
                      path := pathJoin2 path baseName, platformSet := f.platformSet }
      else
        Except.ok { package := f.package, baseDir := f.baseDir, pattern := pattern,
                    path := path, platformSet := f.platformSet }

/-- A registered plugin, reduced to the hook relevant here: the optional
default-artifact-id generator (its argument is the platform, or nothing when
the project has no specified platforms). -/
structure PluginModel where
  getDefaultArtifactId : Option (Option PlatformInfo → String)

/-- The plugin-recording loop of `Artifact.generate`: every plugin exposing
`getDefaultArtifactId` overwrites `defaultIdPlugin`. -/
def findDefaultIdPlugin (plugins : List PluginModel) : Option PluginModel :=
  plugins.foldl
    (fun acc plugin => if plugin.getDefaultArtifactId.isSome then some plugin else acc)
    none

/-- The id template picked by `Artifact.generate` for one platform:
`config.id || (defaultIdPlugin ? defaultIdPlugin.getDefaultArtifactId(...) :
(platformSpecified ? '{name}-{platform}' : '{name}'))`. -/
def computeIdTemplate (cfgId : Option String) (defaultIdPlugin : Option PluginModel)
    (platformSpecified : Bool) (platform : PlatformInfo) : String :=
  let fallback :=
    match defaultIdPlugin with
    | some plugin =>
      (plugin.getDefaultArtifactId.getD (fun _ => ""))
        (if platformSpecified then some platform else none)
    | none => if platformSpecified then "{name}-{platform}" else "{name}"
  match cfgId with
  | some s => if s ≠ "" then s else fallback
  | none => fallback

/-- The data object the id template is rendered against:
`{platform: platformSpecified ? platform.name : undefined}`. A property
holding `undefined` is indistinguishable from an absent one for `render`. -/
def idRenderData (platformSpecified : Bool) (platform : PlatformInfo) : Data :=
  Data.obj (if platformSpecified then [("platform", Data.str platform.name)] else [])

/-- The artifact id computed by `Artifact.generate` for one platform
(rendering with explicit fuel). -/
def generateIdForPlatform (fuel : Nat) (cfgId : Option String) (plugins : List PluginModel)
    (platformSpecified : Bool) (platform : PlatformInfo) : Option String :=
  renderFuel fuel
    (computeIdTemplate cfgId (findDefaultIdPlugin plugins) platformSpecified platform)
    (idRenderData platformSpecified platform)

/-- Modelled from the claim's words for comparison with the source: the id
template rendered against a data object containing the platform name *and
the platform's variables*. -/
def idRenderDataClaim (platform : PlatformInfo) : Data :=
  Data.obj (("platform", Data.str platform.name) :: platform.vars)

/-- Modelled from the claim's words: `generateIdForPlatform` with the
claim's data object. -/
def generateIdForPlatformClaim (fuel : Nat) (cfgId : Option String)
    (plugins : List PluginModel) (platformSpecified : Bool) (platform : PlatformInfo) :
    Option String :=
  renderFuel fuel
    (computeIdTemplate cfgId (findDefaultIdPlugin plugins) platformSpecified platform)
    (idRenderDataClaim platform)

/-- The per-platform mapping filter of `Artifact.generate`:
`mappings.filter(m => !m.platformSet || m.platformSet.has(platform.name))`. -/
def selectMappings (platformName : String) (mappings : List FileMapping) : List FileMapping :=
  mappings.filter (fun m =>
    match m.platformSet with
    | none => true
    | some s => s.contains platformName)

/-- Right-aligned pairing of `**` boundaries with `SegmentRun` captures,
expressed on the reversed boundary list: the head is the part right of the
rightmost remaining boundary, which is paired with the last remaining
capture; a non-empty run is spliced in (after the part, in original order),
an empty one only consumes its capture; boundaries beyond the available
captures are left as-is. -/
def spliceRunsRevAux : List String → List (List String) → List String
  | parts, [] => parts
  | [], _ :: _ => []
  | p :: rest, c :: cs =>
    if c.length ≠ 0 then pathJoinList c :: p :: spliceRunsRevAux rest cs
    else p :: spliceRunsRevAux rest cs

/-- Right-aligned pairing of `*` boundaries with `Segment` captures
(spliced unconditionally), on the reversed boundary list. -/
def spliceSegsRevAux : List String → List String → List String
  | parts, [] => parts
  | [], _ :: _ => []
  | p :: rest, c :: cs => c :: p :: spliceSegsRevAux rest cs

/-- The `**` phase stated right-aligned: the final (rightmost) piece of the
split never has anything inserted after it; the pieces before it are paired
with the captures from the right. -/
def rightAlignRuns (parts : List String) (caps : List (List String)) : List String :=
  match parts.reverse with
  | [] => parts
  | lastP :: frontRev => (spliceRunsRevAux frontRev caps.reverse).reverse ++ [lastP]

/-- The `*` phase stated right-aligned. -/
def rightAlignSegs (parts : List String) (caps : List String) : List String :=
  match parts.reverse with
  | [] => parts
  | lastP :: frontRev => (spliceSegsRevAux frontRev caps.reverse).reverse ++ [lastP]

/-- `buildPath` re-stated with the right-aligned phase descriptions. -/
def buildPathRightAligned (pattern : String) (captures : List Capture) : String :=
  let starCaptures := captures.filterMap (fun c =>
    match c with
    | .segment s => some s
    | .segmentRun _ => none)
  let globStarsCaptures := captures.filterMap (fun c =>
    match c with
    | .segmentRun r => some r
    | .segment _ => none)
  let startWithSlash := startsWithSep pattern
  let parts := rightAlignRuns (splitOnStarStar pattern) globStarsCaptures
  let parts2 := rightAlignSegs (splitOnChar '*' (String.join parts)) starCaptures
  let path := posixNormalize (String.join parts2)
  if !startWithSlash && startsWithSep path then String.mk (path.data.drop 1) else path

/-- Modelled from the spec: in-segment glob matching of `FileWalker`
(file-walker.ts is not among the sources). A `*` matches any run of
characters within one segment; the result lists, in pattern order, the run
each `*` matched. Fueled; zero-or-more runs are tried shortest first, which
is immaterial for the deterministic cases proved here. -/
def matchSeg : Nat → List Char → List Char → Option (List (List Char))
  | 0, _, _ => none
  | _ + 1, [], [] => some []
  | _ + 1, [], _ :: _ => none
  | n + 1, '*' :: ps, s =>
    match matchSeg n ps s with
    | some caps => some ([] :: caps)
    | none =>
      match s with
      | [] => none
      | x :: xs =>
        match matchSeg n ('*' :: ps) xs with
        | some (run :: caps) => some ((x :: run) :: caps)
        | _ => none
  | _ + 1, _ :: _, [] => none
  | n + 1, c :: ps, x :: xs => if c = x then matchSeg n ps xs else none

/-- Modelled from the spec: segment-level glob matching of `FileWalker`.
A `**` pattern segment matches zero or more whole path segments (crossing
directories) and contributes one `SegmentRun` capture listing them; any
other pattern segment must match exactly one path segment, each of its `*`
contributing a `Segment` capture; captures are ordered left-to-right in
pattern order, and the full relative path must be consumed. -/
def matchGlob : Nat → List String → List String → Option (List Capture)
  | 0, _, _ => none
  | _ + 1, [], [] => some []
  | _ + 1, [], _ :: _ => none
  | n + 1, "**" :: ps, segs =>
    match matchGlob n ps segs with
    | some caps => some (Capture.segmentRun [] :: caps)
    | none =>
      match segs with
      | [] => none
      | s :: rest =>
        match matchGlob n ("**" :: ps) rest with
        | some (Capture.segmentRun run :: caps) => some (Capture.segmentRun (s :: run) :: caps)
        | _ => none
  | n + 1, p :: ps, segs =>
    match segs with
    | [] => none
    | s :: rest =>
      match matchSeg (p.length + s.length + 1) p.data s.data with
      | some runs =>
        match matchGlob n ps rest with
        | some caps => some (runs.map (fun r => Capture.segment (String.mk r)) ++ caps)
        | none => none
      | none => none

/-- Modelled from the spec: matching a whole relative path against a glob
pattern, both split on the path separator. -/
def matchPattern (pattern path : String) : Option (List Capture) :=
  matchGlob (pattern.data.length + path.data.length + 2)
    (splitOnChar '/' pattern) (splitOnChar '/' path)

/-! ## Helper lemmas -/

theorem flatten_map_singleton (l : List Char) : (l.map (fun c => [c])).flatten = l := by
  induction l with
  | nil => rfl
  | cons c rest ih => simp [ih]

theorem insertIdx_length_append (l₁ l₂ : List α) (x : α) :
    List.insertIdx l₁.length x (l₁ ++ l₂) = l₁ ++ x :: l₂ := by
  induction l₁ with
  | nil => simp
  | cons a l ih => simpa [List.insertIdx_succ_cons] using ih

theorem insertIdx_middle (l back : List α) (p x : α) :
    List.insertIdx (l.length + 1) x (l.reverse ++ [p] ++ back) = l.reverse ++ p :: x :: back := by
  have h := insertIdx_length_append (l.reverse ++ [p]) back x
  simpa using h

theorem spliceGlobstarsGo_rev_eq (frontRev : List String) :
    ∀ (capsRev : List (List String)) (back : List String),
      spliceGlobstarsGo frontRev.length (frontRev.reverse ++ back) capsRev.reverse
        = (spliceRunsRevAux frontRev capsRev).reverse ++ back := by
  induction frontRev with
  | nil =>
    intro capsRev back
    cases capsRev <;> simp [spliceGlobstarsGo, spliceRunsRevAux]
  | cons p rest ih =>
    intro capsRev back
    cases capsRev with
    | nil => simp [spliceGlobstarsGo, spliceRunsRevAux]
    | cons c cs =>
      rw [show ((c :: cs).reverse : List (List String)) = cs.reverse ++ [c] from
        List.reverse_cons c cs]
      rw [show ((p :: rest).reverse : List String) = rest.reverse ++ [p] from
        List.reverse_cons p rest]
      simp only [List.length_cons, spliceGlobstarsGo, List.getLast?_concat,
        List.dropLast_concat]
      by_cases hc : c.length ≠ 0
      · rw [if_pos hc]
        simp only [insertIdx_middle]
        rw [ih cs (p :: pathJoinList c :: back)]
        simp [spliceRunsRevAux, hc]
      · rw [if_neg hc]
        rw [show rest.reverse ++ [p] ++ back = rest.reverse ++ (p :: back) by simp]
        rw [ih cs (p :: back)]
        simp [spliceRunsRevAux, hc]

theorem spliceStarsGo_rev_eq (frontRev : List String) :
    ∀ (capsRev : List String) (back : List String),
      spliceStarsGo frontRev.length (frontRev.reverse ++ back) capsRev.reverse
        = (spliceSegsRevAux frontRev capsRev).reverse ++ back := by
  induction frontRev with
  | nil =>
    intro capsRev back
    cases capsRev <;> simp [spliceStarsGo, spliceSegsRevAux]
  | cons p rest ih =>
    intro capsRev back
    cases capsRev with
    | nil => simp [spliceStarsGo, spliceSegsRevAux]
    | cons c cs =>
      rw [show ((c :: cs).reverse : List String) = cs.reverse ++ [c] from
        List.reverse_cons c cs]
      rw [show ((p :: rest).reverse : List String) = rest.reverse ++ [p] from
        List.reverse_cons p rest]
      simp only [List.length_cons, spliceStarsGo, List.getLast?_concat,
        List.dropLast_concat, insertIdx_middle]
      rw [ih cs (p :: c :: back)]
      simp [spliceSegsRevAux]

theorem globstar_phase_eq (parts : List String) (caps : List (List String)) :
    (if parts.length > 1 then spliceGlobstarsGo (parts.length - 1) parts caps else parts)
      = rightAlignRuns parts caps := by
  rcases h : parts.reverse with _ | ⟨lastP, frontRev⟩
  · have hp : parts = [] := by simpa using congrArg List.reverse h
    subst hp
    simp [rightAlignRuns]
  · have hp : parts = frontRev.reverse ++ [lastP] := by
      have := congrArg List.reverse h
      simpa using this
    have hlen : parts.length = frontRev.length + 1 := by simp [hp]
    have hmain := spliceGlobstarsGo_rev_eq frontRev caps.reverse [lastP]
    rw [List.reverse_reverse] at hmain
    rcases frontRev with _ | ⟨q, qs⟩
    · have : parts = [lastP] := by simpa using hp
      subst this
      simp only [rightAlignRuns, h]
      have hz : spliceRunsRevAux ([] : List String) caps.reverse = [] := by
        cases caps.reverse <;> simp [spliceRunsRevAux]
      simp [hz]
    · have hgt : parts.length > 1 := by simp [hlen]
      rw [if_pos hgt, hlen]
      simp only [Nat.add_sub_cancel]
      rw [hp, hmain]
      simp [rightAlignRuns, h]

theorem star_phase_eq (parts : List String) (caps : List String) :
    (if parts.length > 1 then spliceStarsGo (parts.length - 1) parts caps else parts)
      = rightAlignSegs parts caps := by
  rcases h : parts.reverse with _ | ⟨lastP, frontRev⟩
  · have hp : parts = [] := by simpa using congrArg List.reverse h
    subst hp
    simp [rightAlignSegs]
  · have hp : parts = frontRev.reverse ++ [lastP] := by
      have := congrArg List.reverse h
      simpa using this
    have hlen : parts.length = frontRev.length + 1 := by simp [hp]
    have hmain := spliceStarsGo_rev_eq frontRev caps.reverse [lastP]
    rw [List.reverse_reverse] at hmain
    rcases frontRev with _ | ⟨q, qs⟩
    · have : parts = [lastP] := by simpa using hp
      subst this
      simp only [rightAlignSegs, h]
      have hz : spliceSegsRevAux ([] : List String) caps.reverse = [] := by
        cases caps.reverse <;> simp [spliceSegsRevAux]
      simp [hz]
    · have hgt : parts.length > 1 := by simp [hlen]
      rw [if_pos hgt, hlen]
      simp only [Nat.add_sub_cancel]
      rw [hp, hmain]
      simp [rightAlignSegs, h]

theorem buildPath_eq_rightAligned (pattern : String) (captures : List Capture) :
    buildPath pattern captures = buildPathRightAligned pattern captures := by
  simp only [buildPath, buildPathRightAligned]
  rw [globstar_phase_eq, star_phase_eq]

theorem flatten_map_singleton_rev (l : List Char) :
    ((l.map (fun c => [c])).reverse).flatten = l.reverse := by
  rw [← List.map_reverse]
  exact flatten_map_singleton l.reverse

theorem goToks_detok (l : List Char) :
    ∀ st : Option (List Char), ((goToks l st).map detok).flatten = pendingChars st ++ l := by
  induction l with
  | nil =>
    intro st
    cases st with
    | none => rfl
    | some acc =>
      simp [goToks, pendingChars, detok, List.map_map, Function.comp_def,
        flatten_map_singleton, flatten_map_singleton_rev]
  | cons c rest ih =>
    intro st
    cases st with
    | none =>
      by_cases hc : c = '{'
      · subst hc
        simp [goToks, pendingChars, detok, ih, flatten_map_singleton,
          flatten_map_singleton_rev, List.map_map, Function.comp_def]
      · simp [goToks, hc, pendingChars, detok, ih, flatten_map_singleton,
          flatten_map_singleton_rev, List.map_map, Function.comp_def]
    | some acc =>
      by_cases hc : c = '}'
      · subst hc
        cases acc with
        | nil =>
          simp [goToks, pendingChars, detok, ih, flatten_map_singleton,
            flatten_map_singleton_rev, List.map_map, Function.comp_def]
        | cons a as =>
          simp [goToks, pendingChars, detok, ih, flatten_map_singleton,
            flatten_map_singleton_rev, List.map_map, Function.comp_def]
      · by_cases he : isExprChar c = true
        · simp [goToks, hc, he, pendingChars, detok, ih, flatten_map_singleton,
            flatten_map_singleton_rev, List.map_map, Function.comp_def]
        · by_cases hb : c = '{'
          · subst hb
            simp [goToks, hc, he, pendingChars, detok, ih, flatten_map_singleton,
              flatten_map_singleton_rev, List.map_map, Function.comp_def]
          · simp [goToks, hc, he, hb, pendingChars, detok, ih, flatten_map_singleton,
              flatten_map_singleton_rev, List.map_map, Function.comp_def]

theorem renderOnce_all_miss (t : String) (d : Data)
    (h : allPlaceholdersMiss d t = true) : renderOnce t d = t := by
  have hmaps : (goToks t.data none).map (renderTok d) = (goToks t.data none).map detok := by
    apply List.map_congr_left
    intro tok htok
    have := List.all_eq_true.mp h tok htok
    cases tok with
    | lit c => rfl
    | ph e =>
      simp only [renderTok, detok]
      have hn : lookupPath d (splitOnChar '.' (String.mk e)) = none := by
        simpa [Option.isNone_iff_eq_none] using this
      rw [hn]
  have hflat := goToks_detok t.data none
  rw [renderOnce, hmaps, hflat]
  show String.mk t.data = t
  cases t
  rfl

theorem renderFuel_fixes (n : Nat) :
    ∀ (t : String) (d : Data) (r : String), renderFuel n t d = some r → renderOnce r d = r := by
  induction n with
  | zero =>
    intro t d r h
    simp only [renderFuel] at h
    by_cases ht : renderOnce t d = t
    · rw [if_pos ht] at h
      cases h
      exact ht
    · rw [if_neg ht] at h
      cases h
  | succ n ih =>
    intro t d r h
    simp only [renderFuel] at h
    by_cases ht : renderOnce t d = t
    · rw [if_pos ht] at h
      cases h
      exact ht
    · rw [if_neg ht] at h
      exact ih (renderOnce t d) d r h

theorem renderFuel_of_fixed (m : Nat) (r : String) (d : Data) (h : renderOnce r d = r) :
    renderFuel m r d = some r := by
  cases m <;> simp [renderFuel, h]

/-! ## Claim theorems -/

/-- C1: `buildPath` splices captures into the destination template so that
glob round-trips hold: matching `src/*/file.js` against `src/foo/file.js`
yields the captures `[Segment foo]` and `buildPath` rebuilds
`dist/foo/out.js` from `dist/*/out.js`; matching `src/**/*.js` against
`src/a/b/c.js` yields `[SegmentRun [a, b], Segment c]` and `buildPath`
rebuilds `lib/a/b/c.js` from `lib/**/*.js`. -/
theorem c1_buildPath_glob_roundtrip :
    (matchPattern ("src/*/file.js") ("src/foo/file.js") = some [Capture.segment ("foo")]
      ∧ buildPath ("dist/*/out.js") [Capture.segment ("foo")] = "dist/foo/out.js")
    ∧ (matchPattern ("src/**/*.js") ("src/a/b/c.js")
          = some [Capture.segmentRun [("a"), ("b")], Capture.segment ("c")]
      ∧ buildPath ("lib/**/*.js") [Capture.segmentRun [("a"), ("b")], Capture.segment ("c")]
          = "lib/a/b/c.js") :=
  ⟨⟨by decide, by decide⟩, ⟨by decide, by decide⟩⟩

/-- C2: `render` repeats the full substitution pass on its own output until a
pass produces no change, so a terminating render returns a fixed point:
re-rendering the result returns it unchanged under any fuel; and chained
placeholders resolve fully, e.g. rendering `{a}` against `a = {b}, b = x`
gives `x`. -/
theorem c2_render_fixed_point_idempotent :
    (∀ (n : Nat) (t : String) (d : Data) (r : String),
        renderFuel n t d = some r → ∀ m : Nat, renderFuel m r d = some r)
      ∧ renderFuel 2 ("{a}") (Data.obj [(("a"), Data.str ("{b}")), (("b"), Data.str ("x"))])
          = some ("x") := by
  constructor
  · intro n t d r h m
    exact renderFuel_of_fixed m r d (renderFuel_fixes n t d r h)
  · decide

theorem c2_witness :
    renderFuel 5 ("x") (Data.obj [(("a"), Data.str ("{b}")), (("b"), Data.str ("x"))])
      = some ("x") :=
  c2_render_fixed_point_idempotent.1 2 ("{a}")
    (Data.obj [(("a"), Data.str ("{b}")), (("b"), Data.str ("x"))]) ("x") (by decide) 5

/-- C3: a placeholder whose dotted key path reaches an undefined value at any
step is left untouched: when every placeholder of the template misses,
`render` returns the template unchanged (and being a total function it never
raises); in particular rendering `{missing}` against an empty object returns
`{missing}` unchanged. -/
theorem c3_render_lookup_miss_passthrough :
    (∀ (t : String) (d : Data), allPlaceholdersMiss d t = true →
        ∀ n : Nat, renderFuel n t d = some t)
      ∧ renderFuel 0 ("{missing}") (Data.obj []) = some ("{missing}")
      ∧ (∀ (d : Data) (e : List Char),
          lookupPath d (splitOnChar '.' (String.mk e)) = none →
          renderTok d (RTok.ph e) = detok (RTok.ph e)) := by
  refine ⟨?_, by decide, ?_⟩
  · intro t d h n
    exact renderFuel_of_fixed n t d (renderOnce_all_miss t d h)
  · intro d e h
    simp [renderTok, detok, h]

theorem c3_witness :
    renderFuel 4 ("{missing}") (Data.obj []) = some ("{missing}") :=
  c3_render_lookup_miss_passthrough.1 ("{missing}") (Data.obj []) (by decide) 4

/-- C4 counterexample: for the specifier with `platforms` present but empty
(a truthy array in JS), the code filters the input list (to nothing) with
`specified = true`, while the claim's reading (first branch only when
non-empty) would fall through to the synthetic host platform with
`specified = false`. -/
theorem c4_counterexample :
    getMatchedPlatforms ("darwin") { platforms := some [] } [{ name := ("linux") }]
        = ([], true)
      ∧ getMatchedPlatformsClaim ("darwin") { platforms := some [] } [{ name := ("linux") }]
        = ([{ name := ("darwin") }], false)
      ∧ getMatchedPlatforms ("darwin") { platforms := some [] } [{ name := ("linux") }]
        ≠ getMatchedPlatformsClaim ("darwin") { platforms := some [] } [{ name := ("linux") }] := by
  refine ⟨rfl, rfl, ?_⟩
  intro h
  exact Bool.noConfusion (congrArg Prod.snd h)

/-- C4 (amended): the first branch applies whenever `specifier.platforms` is
*present* (even empty); the second whenever `specifier.platform` is a
non-empty string; then `multiplatform`; else the synthetic host platform
with `specified = false`, regardless of the input list. -/
theorem c4_getMatchedPlatforms_precedence :
    (∀ (host : String) (s : PlatformSpecifier) (ps : List PlatformInfo) (names : List String),
        s.platforms = some names →
        getMatchedPlatforms host s ps = (ps.filter (fun pl => names.contains pl.name), true))
  ∧ (∀ (host : String) (s : PlatformSpecifier) (ps : List PlatformInfo) (p : String),
        s.platforms = none → s.platform = some p → p ≠ "" →
        getMatchedPlatforms host s ps = (ps.filter (fun pl => [p].contains pl.name), true))
  ∧ (∀ (host : String) (s : PlatformSpecifier) (ps : List PlatformInfo),
        s.platforms = none → (s.platform = none ∨ s.platform = some ("")) →
        s.multiplatform = true →
        getMatchedPlatforms host s ps = (ps, true))
  ∧ (∀ (host : String) (s : PlatformSpecifier) (ps : List PlatformInfo),
        s.platforms = none → (s.platform = none ∨ s.platform = some ("")) →
        s.multiplatform = false →
        getMatchedPlatforms host s ps = ([{ name := host }], false)) := by
  refine ⟨?_, ?_, ?_, ?_⟩
  · intro host s ps names hps
    simp [getMatchedPlatforms, hps]
  · intro host s ps p hps hp hne
    simp [getMatchedPlatforms, hps, hp, hne]
  · intro host s ps hps hp hm
    rcases hp with hp | hp <;> simp [getMatchedPlatforms, hps, hp, hm]
  · intro host s ps hps hp hm
    rcases hp with hp | hp <;> simp [getMatchedPlatforms, hps, hp, hm]

theorem c4_witness :
    getMatchedPlatforms ("darwin") {} [{ name := ("linux") }]
      = ([{ name := ("darwin") }], false) :=
  c4_getMatchedPlatforms_precedence.2.2.2 ("darwin") {} [{ name := ("linux") }]
    rfl (Or.inl rfl) rfl

/-- C5 counterexample: with an explicit id template `{v}` and a platform
carrying the variable `v = V`, the code renders against a data object holding
only the platform name, leaving `{v}` unresolved, while the claim's data
object (platform name plus the platform's variables) would resolve it to
`V`. -/
theorem c5_counterexample :
    generateIdForPlatform 3 (some ("{v}")) [] true
        { name := ("linux"), vars := [(("v"), Data.str ("V"))] } = some ("{v}")
      ∧ generateIdForPlatformClaim 3 (some ("{v}")) [] true
        { name := ("linux"), vars := [(("v"), Data.str ("V"))] } = some ("V")
      ∧ generateIdForPlatform 3 (some ("{v}")) [] true
          { name := ("linux"), vars := [(("v"), Data.str ("V"))] }
        ≠ generateIdForPlatformClaim 3 (some ("{v}")) [] true
          { name := ("linux"), vars := [(("v"), Data.str ("V"))] } :=
  ⟨by decide, by decide, by decide⟩

/-- C5 (amended): the artifact id is the id template rendered against a data
object holding only the platform name (and that only when the project's
platforms are specified; otherwise no binding at all, never the platform's
variables); the template is, in priority order, a truthy explicit
configuration value, else the recorded plugin's default-id generator result,
else the literal chosen by the `platformSpecified` flag. -/
theorem c5_artifact_id_template_and_data :
    (∀ (fuel : Nat) (plugins : List PluginModel) (specified : Bool)
        (platform : PlatformInfo) (s : String), s ≠ "" →
        generateIdForPlatform fuel (some s) plugins specified platform
          = renderFuel fuel s (idRenderData specified platform))
  ∧ (∀ (fuel : Nat) (cfgId : Option String) (plugins : List PluginModel) (specified : Bool)
        (platform : PlatformInfo) (plugin : PluginModel) (gen : Option PlatformInfo → String),
        (cfgId = none ∨ cfgId = some ("")) →
        findDefaultIdPlugin plugins = some plugin →
        plugin.getDefaultArtifactId = some gen →
        generateIdForPlatform fuel cfgId plugins specified platform
          = renderFuel fuel (gen (if specified then some platform else none))
              (idRenderData specified platform))
  ∧ (∀ (fuel : Nat) (cfgId : Option String) (plugins : List PluginModel) (specified : Bool)
        (platform : PlatformInfo),
        (cfgId = none ∨ cfgId = some ("")) →
        findDefaultIdPlugin plugins = none →
        generateIdForPlatform fuel cfgId plugins specified platform
          = renderFuel fuel (if specified then ("{name}-{platform}") else ("{name}"))
              (idRenderData specified platform)) := by
  refine ⟨?_, ?_, ?_⟩
  · intro fuel plugins specified platform s hs
    simp [generateIdForPlatform, computeIdTemplate, hs]
  · intro fuel cfgId plugins specified platform plugin gen hcfg hfind hgen
    rcases hcfg with h | h <;>
      simp [generateIdForPlatform, computeIdTemplate, h, hfind, hgen]
  · intro fuel cfgId plugins specified platform hcfg hfind
    rcases hcfg with h | h <;>
      simp [generateIdForPlatform, computeIdTemplate, h, hfind]

theorem c5_witness :
    generateIdForPlatform 3 none [] true { name := ("linux") }
      = renderFuel 3 ("{name}-{platform}") (idRenderData true { name := ("linux") }) :=
  c5_artifact_id_template_and_data.2.2 3 none [] true { name := ("linux") }
    (Or.inl rfl) rfl

/-- C6: when the (normalized) destination path ends in a separator, the
pattern's final component is appended to it via `Path.join` — unless both the
pattern's and the path's final components are the globstar token, which is a
fatal configuration error. -/
theorem c6_directory_target_expansion :
    ∀ (config : FileMappingConfiguration) (pat pth : String),
      (rawMappingFields config).pattern = some pat →
      endsWithSep pat = false →
      (rawMappingFields config).path = some pth →
      endsWithSep pth = true →
      ((¬(posixBasename pat = "**" ∧ posixBasename pth = "**")) →
          normalizeMapping config = Except.ok
            { package := (rawMappingFields config).package,
              baseDir := (rawMappingFields config).baseDir,
              pattern := pat,
              path := pathJoin2 pth (posixBasename pat),
              platformSet := (rawMappingFields config).platformSet })
        ∧ ((posixBasename pat = "**" ∧ posixBasename pth = "**") →
          normalizeMapping config = Except.error ("Invalid path option")) := by
  intro config pat pth hpat hsep hpath hpsep
  constructor
  · intro hne
    have hb : ¬(posixBasename pat = "**" && posixBasename pth = "**") = true := by
      simpa [Bool.and_eq_true, decide_eq_true_eq] using hne
    simp [normalizeMapping, hpat, hsep, hpath, hpsep, hb]
  · intro hyes
    have hb : (posixBasename pat = "**" && posixBasename pth = "**") = true := by
      simpa [Bool.and_eq_true, decide_eq_true_eq] using hyes
    simp [normalizeMapping, hpat, hsep, hpath, hpsep, hb]

theorem c6_witness :
    normalizeMapping (FileMappingConfiguration.descriptor none (some ("a/b.txt")) none
        (some ("out/")) none none)
      = Except.ok
          { package := none, baseDir := none, pattern := ("a/b.txt"),
            path := ("out/b.txt"), platformSet := none } := by
  have h := (c6_directory_target_expansion
    (FileMappingConfiguration.descriptor none (some ("a/b.txt")) none (some ("out/")) none none)
    ("a/b.txt") ("out/") rfl rfl rfl rfl).1 (by decide)
  rw [show pathJoin2 ("out/") (posixBasename ("a/b.txt")) = ("out/b.txt") from rfl] at h
  exact h

theorem endsWithSep_append_sep (y : String) : endsWithSep (y ++ ("/")) = true := by
  have hd : (y ++ ("/")).data = y.data ++ ['/'] := by
    rw [String.data_append]
  simp [endsWithSep, hd, List.getLast?_concat]

/-- Node's normalize preserves a trailing separator: every branch of the
assembly ends in `/` when the input did. -/
theorem posixNormalize_trailing (s : String) (h : endsWithSep s = true) :
    endsWithSep (posixNormalize s) = true := by
  have hne : s ≠ "" := by
    intro he
    subst he
    simp [endsWithSep] at h
  rw [posixNormalize, if_neg hne]
  simp only [h, ite_true]
  by_cases hbody : joinSegs (normSegsGo (!startsWithSep s) [] (splitOnChar '/' s)) = ""
  · rw [if_pos hbody]
    by_cases habs : startsWithSep s = true <;> simp [habs, endsWithSep]
  · rw [if_neg hbody]
    exact endsWithSep_append_sep _

/-- C7 counterexample: the descriptor with pattern `**` and path `x/**/`
has a present pattern not ending in a separator, yet normalization fails
(with the globstar-ambiguity error), so the two listed cases are not the
only failures. -/
theorem c7_counterexample :
    normalizeMapping (FileMappingConfiguration.descriptor none (some ("**")) none
        (some ("x/**/")) none none) = Except.error ("Invalid path option")
      ∧ (rawMappingFields (FileMappingConfiguration.descriptor none (some ("**")) none
          (some ("x/**/")) none none)).pattern = some ("**")
      ∧ endsWithSep ("**") = false :=
  ⟨rfl, rfl, rfl⟩

/-- C7 (amended): normalization fails exactly when the pattern is missing
(falsy), or the normalized pattern ends in a separator, or the effective
destination path ends in a separator while both final components are the
globstar token; in particular a raw pattern ending in a separator always
fails (trailing separators survive normalization). -/
theorem c7_validation_characterization :
    (∀ config : FileMappingConfiguration,
        (∃ e, normalizeMapping config = Except.error e) ↔
          ((rawMappingFields config).pattern = none
            ∨ ∃ pat, (rawMappingFields config).pattern = some pat ∧
                (endsWithSep pat = true
                  ∨ (endsWithSep ((rawMappingFields config).path.getD pat) = true
                      ∧ posixBasename pat = "**"
                      ∧ posixBasename ((rawMappingFields config).path.getD pat) = "**"))))
  ∧ (∀ s : String, endsWithSep s = true →
      ∃ e, normalizeMapping (FileMappingConfiguration.str s) = Except.error e)
  ∧ (∀ (pkg bd pth plat : Option String) (plats : Option (List String)) (s : String),
      endsWithSep s = true →
      ∃ e, normalizeMapping (FileMappingConfiguration.descriptor pkg (some s) bd pth plat plats)
        = Except.error e) := by
  refine ⟨?_, ?_, ?_⟩
  · intro config
    rcases hpat : (rawMappingFields config).pattern with _ | pat
    · simp [normalizeMapping, hpat]
    · by_cases h1 : endsWithSep pat = true
      · simp [normalizeMapping, hpat, h1]
      · by_cases h2 : endsWithSep ((rawMappingFields config).path.getD pat) = true
        · by_cases h3 : (posixBasename pat = "**" && posixBasename
              ((rawMappingFields config).path.getD pat) = "**") = true
          · have h3' := (Bool.and_eq_true _ _).mp h3
            simp [normalizeMapping, hpat, h1, h2, h3, decide_eq_true_eq] at h3' ⊢
            exact h3'
          · simp [normalizeMapping, hpat, h1, h2, h3]
            intro hpp hqq
            exact h3 (by simp [hpp, hqq])
        · simp [normalizeMapping, hpat, h1, h2]
  · intro s h
    have h2 := posixNormalize_trailing s h
    refine ⟨("Expecting mapping pattern to match files instead of directories"), ?_⟩
    simp [normalizeMapping, rawMappingFields, h2]
  · intro pkg bd pth plat plats s h
    have hne : s ≠ "" := by
      intro he
      subst he
      simp [endsWithSep] at h
    have h2 := posixNormalize_trailing s h
    refine ⟨("Expecting mapping pattern to match files instead of directories"), ?_⟩
    simp [normalizeMapping, rawMappingFields, hne, h2]

theorem c7_witness :
    ∃ e, normalizeMapping (FileMappingConfiguration.str ("a/")) = Except.error e :=
  c7_validation_characterization.2.1 ("a/") (by decide)

/-- C8: `buildPath` pairs wildcards with captures right-to-left — it equals
the right-aligned description in which the last `**` (resp. `*`) boundary
receives the last `SegmentRun` (resp. `Segment`) capture, non-empty runs
only are spliced, and boundaries beyond the available captures are left
as-is; no error is raised for surplus wildcards, as the concrete
under-substituted examples show. -/
theorem c8_buildPath_right_aligned :
    (∀ (pattern : String) (captures : List Capture),
        buildPath pattern captures = buildPathRightAligned pattern captures)
      ∧ buildPath ("a/**/b/**/c") [Capture.segmentRun [("x")]] = "a/b/x/c"
      ∧ buildPath ("*/*.js") [Capture.segment ("foo")] = "foo.js" :=
  ⟨buildPath_eq_rightAligned, by decide, by decide⟩

/-- C9: the mappings processed for a platform are exactly the normalized
mappings that either have no `platformSet` or whose `platformSet` contains
the platform's name; an absent `platformSet` keeps the mapping active for
every selected platform. -/
theorem c9_mapping_platform_filter (name : String) (mappings : List FileMapping)
    (m : FileMapping) :
    m ∈ selectMappings name mappings ↔
      m ∈ mappings ∧ (m.platformSet = none ∨ ∃ s, m.platformSet = some s ∧ name ∈ s) := by
  unfold selectMappings
  rw [List.mem_filter]
  rcases hps : m.platformSet with _ | s
  · simp [hps]
  · simp [hps]

theorem foldl_last_filter {α : Type} (pred : α → Bool) (l : List α) :
    ∀ acc : Option α,
      l.foldl (fun a p => if pred p then some p else a) acc
        = ((l.filter pred).getLast?).elim acc some := by
  induction l with
  | nil => intro acc; rfl
  | cons x xs ih =>
    intro acc
    simp only [List.foldl_cons]
    rw [ih]
    by_cases hx : pred x
    · simp only [List.filter_cons, hx, ite_true]
      rcases hfil : xs.filter pred with _ | ⟨y, ys⟩
      · simp [hfil, hx]
      · rw [List.getLast?_cons_cons]
        rcases hlast : (y :: ys).getLast? with _ | z
        · exact absurd (List.getLast?_eq_none_iff.mp hlast) (by simp)
        · rfl
    · simp [List.filter_cons, hx]

/-- C10: when several plugins expose a default-artifact-id generator, the
recording loop keeps the one appearing last in the plugin list — it returns
the last plugin whose generator is present, so a plugin with a generator
appended after any others is always the recorded one and earlier plugins'
generators are never consulted for the default id. -/
theorem c10_last_plugin_generator_wins :
    (∀ plugins : List PluginModel,
        findDefaultIdPlugin plugins
          = (plugins.filter (fun p => p.getDefaultArtifactId.isSome)).getLast?)
    ∧ (∀ (ps : List PluginModel) (q : PluginModel) (g : Option PlatformInfo → String),
        q.getDefaultArtifactId = some g →
        findDefaultIdPlugin (ps ++ [q]) = some q) := by
  have h1 : ∀ plugins : List PluginModel,
      findDefaultIdPlugin plugins
        = (plugins.filter (fun p => p.getDefaultArtifactId.isSome)).getLast? := by
    intro plugins
    have helim : ∀ o : Option PluginModel, o.elim none some = o := by
      intro o
      cases o <;> rfl
    rw [findDefaultIdPlugin, foldl_last_filter, helim]
  refine ⟨h1, ?_⟩
  intro ps q g hg
  rw [h1, List.filter_append]
  simp [List.filter, hg, List.getLast?_concat]

theorem c10_witness :
    findDefaultIdPlugin
        ([{ getDefaultArtifactId := none },
          { getDefaultArtifactId := some (fun _ => ("a")) }]
          ++ [{ getDefaultArtifactId := some (fun _ => ("b")) }])
      = some { getDefaultArtifactId := some (fun _ => ("b")) } :=
  c10_last_plugin_generator_wins.2
    [{ getDefaultArtifactId := none },
      { getDefaultArtifactId := some (fun _ => ("a")) }]
    { getDefaultArtifactId := some (fun _ => ("b")) } (fun _ => ("b")) rfl
